import Mathlib

/-!
# ubrotli wrapper: the two retry loops of `examples/ubrotli/wrapper.c`

The wrapper exposes `compress` and `decompress`.  Each one allocates an output
buffer, calls the Brotli one-shot entry point, and on failure frees the buffer
and tries again with a larger one.

The Brotli library itself is not part of the repository, so the encoder and the
decoder are parameters of the embedding: functions from the arguments of one
call to what the call leaves behind (return value, the in/out length, and the
contents of the output buffer).

Conventions of the embedding

* `size_t` is 64 bits wide; `output_size *= k` is multiplication modulo `2^64`.
* `PyMem_Malloc` is assumed to succeed (the source does not test its result).
* Arguments are typed: the buffer is a byte string and `mode`, `window`,
  `quality` are Python integers, so the parser cannot fail with a `TypeError`.
* `compress` and `decompress` are the two C functions from the point where the
  parser has returned success (`wrapper.c` lines 18-33 and 43-64, with the
  initial values of lines 9-11).  Their integer arguments are the C variables;
  they are only handed on to the encoder, no arithmetic is done on them.
* `ubrotli_compress` is the whole of `compress` as Python calls it: the
  parser's conversion of each supplied integer to a C `int` (lines 14-16),
  which fails for a value a C `int` cannot hold, then the body.
* A `while (1)` loop is run with a fuel counter, one unit per attempt; running
  out of fuel is reported as `result = none`.  Every call made to the codec is
  recorded, in order, in `calls`.
-/

namespace Ubrotli

/-! ## Data model -/

/-- Contents of a `uint8_t` buffer. -/
abbrev Bytes := List UInt8

/-- Number of values of a `size_t`. -/
def SIZE_MODULUS : Nat := 2 ^ 64

/-- Reduction of a natural number to a `size_t`. -/
def toSizeT (n : Nat) : Nat := n % SIZE_MODULUS

/-- The result type `BrotliDecoderResult` of `brotli/decode.h`. -/
inductive BrotliDecoderResult
  | BROTLI_DECODER_RESULT_ERROR
  | BROTLI_DECODER_RESULT_SUCCESS
  | BROTLI_DECODER_RESULT_NEEDS_MORE_INPUT
  | BROTLI_DECODER_RESULT_NEEDS_MORE_OUTPUT
  deriving DecidableEq, Repr

/-- The macro `BROTLI_DECODER_SUCCESS` the wrapper compares against. -/
abbrev BROTLI_DECODER_SUCCESS : BrotliDecoderResult :=
  BrotliDecoderResult.BROTLI_DECODER_RESULT_SUCCESS

/-- Value of `BROTLI_DEFAULT_MODE` (`BROTLI_MODE_GENERIC`) in `brotli/encode.h`. -/
def BROTLI_DEFAULT_MODE : Int := 0

/-- Value of `BROTLI_DEFAULT_WINDOW` in `brotli/encode.h`. -/
def BROTLI_DEFAULT_WINDOW : Int := 22

/-- Value of `BROTLI_DEFAULT_QUALITY` in `brotli/encode.h`. -/
def BROTLI_DEFAULT_QUALITY : Int := 11

/-- Value of `BROTLI_MIN_QUALITY` in `brotli/encode.h`. -/
def BROTLI_MIN_QUALITY : Int := 0

/-- Value of `BROTLI_MAX_QUALITY` in `brotli/encode.h`. -/
def BROTLI_MAX_QUALITY : Int := 11

/-- Arguments of one call
`BrotliEncoderCompress(quality, lgwin, mode, input_size, input_buffer,
&encoded_size, encoded_buffer)`; `capacity` is the value of `*encoded_size` on
entry, which is also the size of `encoded_buffer`. -/
structure EncoderCall where
  quality : Int
  lgwin : Int
  mode : Int
  input_size : Nat
  input_buffer : Bytes
  capacity : Nat
  deriving DecidableEq, Repr

/-- What one call of `BrotliEncoderCompress` leaves behind: the `BROTLI_BOOL` it
returns, the value of `*encoded_size` on exit and the contents of the output
buffer. -/
structure EncoderReply where
  ok : Bool
  encoded_size : Nat
  encoded_buffer : Bytes
  deriving DecidableEq, Repr

/-- The encoder of the Brotli library, as seen by the wrapper. -/
abbrev Encoder := EncoderCall → EncoderReply

/-- Arguments of one call
`BrotliDecoderDecompress(encoded_size, encoded_buffer, &decoded_size,
decoded_buffer)`; `capacity` is the value of `*decoded_size` on entry. -/
structure DecoderCall where
  encoded_size : Nat
  encoded_buffer : Bytes
  capacity : Nat
  deriving DecidableEq, Repr

/-- What one call of `BrotliDecoderDecompress` leaves behind: the status it
returns, the value of `*decoded_size` on exit and the contents of the output
buffer. -/
structure DecoderReply where
  status : BrotliDecoderResult
  decoded_size : Nat
  decoded_buffer : Bytes
  deriving DecidableEq, Repr

/-- The decoder of the Brotli library, as seen by the wrapper. -/
abbrev Decoder := DecoderCall → DecoderReply

/-- Outcome of a wrapper function that returned to Python: a `bytes` object
(`PyBytes_FromStringAndSize`), `NULL` with a `ValueError` set by the wrapper,
or `NULL` with the `OverflowError` the argument parser sets when an integer
does not fit a C `int`. -/
inductive PyResult
  | bytes (data : Bytes)
  | valueError (message : String)
  | overflowError
  deriving DecidableEq, Repr

/-- A run of one of the two loops: the codec calls made so far, oldest first,
and the value returned, `none` while the loop has not returned. -/
structure Run (Call : Type) where
  calls : List Call
  result : Option PyResult

/-- `PyBytes_FromStringAndSize(output, n)`: the first `n` bytes of `output`. -/
def PyBytes_FromStringAndSize (output : Bytes) (n : Nat) : PyResult :=
  PyResult.bytes (output.take n)

/-! ## `compress` -/

/-- The `while (1)` loop of `compress`, entered with the current `output_size`.
One iteration: call the encoder with `compressed_length = output_size`; when it
reports success leave the loop and return the first `compressed_length` bytes
of the buffer, otherwise free the buffer, double `output_size` and go round
again. -/
def compressLoop (enc : Encoder) (quality window mode : Int) (length : Nat)
    (buffer : Bytes) : (fuel : Nat) → (output_size : Nat) → Run EncoderCall
  | 0, _ => ⟨[], none⟩
  | fuel + 1, output_size =>
    let call : EncoderCall := ⟨quality, window, mode, length, buffer, output_size⟩
    let reply := enc call
    if reply.ok then
      ⟨[call], some (PyBytes_FromStringAndSize reply.encoded_buffer reply.encoded_size)⟩
    else
      let rest := compressLoop enc quality window mode length buffer fuel
        (toSizeT (output_size * 2))
      ⟨call :: rest.calls, rest.result⟩

/-- The function `compress(buffer, mode, window, quality)` once its arguments
are parsed: `mode`, `window` and `quality` are the values stored in the C
variables, an argument the caller leaves out is `none` and keeps the initial
value of its C variable. -/
def compress (enc : Encoder) (fuel : Nat) (buffer : Bytes)
    (mode window quality : Option Int) : Run EncoderCall :=
  let length := buffer.length
  let mode := mode.getD BROTLI_DEFAULT_MODE
  let window := window.getD BROTLI_DEFAULT_WINDOW
  let quality := quality.getD BROTLI_DEFAULT_QUALITY
  let output_size := toSizeT length
  compressLoop enc quality window mode length buffer fuel output_size

/-- Least value of a C `int`. -/
def INT_MIN : Int := -2147483648

/-- Greatest value of a C `int`. -/
def INT_MAX : Int := 2147483647

/-- The format unit `i` of the argument parser on an optional argument: an
argument left out is skipped, a supplied Python integer is stored when a C
`int` can hold it, and otherwise the conversion fails. -/
def convertInt (arg : Option Int) : Bool :=
  match arg with
  | none => true
  | some value => decide (INT_MIN ≤ value) && decide (value ≤ INT_MAX)

/-- The call `PyArg_ParseTupleAndKeywords(args, kwargs, "y#|iii", keywords,
&buffer, &length, &mode, &window, &quality)` on typed arguments: nonzero when
each of the three optional integers converts. -/
def PyArg_ParseTupleAndKeywords (mode window quality : Option Int) : Bool :=
  convertInt mode && convertInt window && convertInt quality

/-- The function `compress` as Python calls it: when the parser fails the
function returns `NULL` at once, with the parser's `OverflowError` and without
any encoder call; otherwise it runs the body on the parsed arguments. -/
def ubrotli_compress (enc : Encoder) (fuel : Nat) (buffer : Bytes)
    (mode window quality : Option Int) : Run EncoderCall :=
  if PyArg_ParseTupleAndKeywords mode window quality then
    compress enc fuel buffer mode window quality
  else
    ⟨[], some PyResult.overflowError⟩

/-! ## `decompress` -/

/-- The `while (1)` loop of `decompress`, entered with the current
`output_size`.  One iteration: call the decoder with
`decompressed_length = output_size`; on `BROTLI_DECODER_SUCCESS` leave the loop
and return the first `decompressed_length` bytes of the buffer; otherwise, when
`decompressed_length` is nonzero, free the buffer, multiply `output_size` by 4
and go round again; when it is zero set the `ValueError` and return `NULL`. -/
def decompressLoop (dec : Decoder) (length : Nat) (buffer : Bytes) :
    (fuel : Nat) → (output_size : Nat) → Run DecoderCall
  | 0, _ => ⟨[], none⟩
  | fuel + 1, output_size =>
    let call : DecoderCall := ⟨length, buffer, output_size⟩
    let reply := dec call
    if reply.status = BROTLI_DECODER_SUCCESS then
      ⟨[call], some (PyBytes_FromStringAndSize reply.decoded_buffer reply.decoded_size)⟩
    else if reply.decoded_size ≠ 0 then
      let rest := decompressLoop dec length buffer fuel (toSizeT (output_size * 4))
      ⟨call :: rest.calls, rest.result⟩
    else
      ⟨[call], some (PyResult.valueError "Invalid brotli-compressed buffer")⟩

/-- The function `decompress(buffer)`. -/
def decompress (dec : Decoder) (fuel : Nat) (buffer : Bytes) : Run DecoderCall :=
  let length := buffer.length
  let output_size := toSizeT (length * 4)
  decompressLoop dec length buffer fuel output_size

/-! ## Module constants -/

/-- The integer constants `PyInit_ubrotli` adds to the module, in the order of
the `PyModule_AddIntConstant` calls.  `BROTLI_MODE_FONT` and `BROTLI_MODE_TEXT`
are the enumerators 2 and 1 of `BrotliEncoderMode`. -/
def PyInit_ubrotli : List (String × Int) :=
  [("DEFAULT_QUALITY", BROTLI_DEFAULT_QUALITY),
   ("MAX_QUALITY", BROTLI_MAX_QUALITY),
   ("MIN_QUALITY", BROTLI_MIN_QUALITY),
   ("DEFAULT_WINDOW", BROTLI_DEFAULT_WINDOW),
   ("DEFAULT_MODE", BROTLI_DEFAULT_MODE),
   ("MODE_FONT", 2),
   ("MODE_TEXT", 1)]

/-! ## Vocabulary for the statements -/

/-- The encoder call `compress` makes on attempt `j` (counted from 0) when the
loop is entered with `output_size = x mod 2^64`: the caller's parameters and
input, and the capacity `x * 2^j mod 2^64`. -/
def encoderCallAt (quality window mode : Int) (length : Nat) (buffer : Bytes)
    (x j : Nat) : EncoderCall :=
  ⟨quality, window, mode, length, buffer, toSizeT (x * 2 ^ j)⟩

/-- The decoder call `decompress` makes on attempt `j` (counted from 0) when
the loop is entered with `output_size = x mod 2^64`: the caller's input and the
capacity `x * 4^j mod 2^64`. -/
def decoderCallAt (length : Nat) (buffer : Bytes) (x j : Nat) : DecoderCall :=
  ⟨length, buffer, toSizeT (x * 4 ^ j)⟩

/-- The bytes a successful encoder call hands back to the wrapper: the output
buffer cut to the reported length. -/
def EncoderReply.stream (r : EncoderReply) : Bytes :=
  r.encoded_buffer.take r.encoded_size

/-- The bytes a successful decoder call hands back to the wrapper: the output
buffer cut to the reported length. -/
def DecoderReply.data (r : DecoderReply) : Bytes :=
  r.decoded_buffer.take r.decoded_size

/-- The decoder reports something other than success. -/
def DecoderReply.failed (r : DecoderReply) : Prop :=
  r.status ≠ BROTLI_DECODER_SUCCESS

/-- The stream `c` decodes to `b`: with an output capacity of at least `len b`
the decoder succeeds and delivers `b`; with less it fails, and reports a
nonzero partial size unless the capacity is zero (a buffer of zero bytes
cannot hold a partial output, so nothing is asked of the size there). -/
def DecodesTo (dec : Decoder) (c b : Bytes) : Prop :=
  ∀ capacity : Nat,
    (b.length ≤ capacity →
      (dec ⟨c.length, c, capacity⟩).status = BROTLI_DECODER_SUCCESS ∧
      (dec ⟨c.length, c, capacity⟩).data = b) ∧
    (capacity < b.length →
      (dec ⟨c.length, c, capacity⟩).failed ∧
      (0 < capacity → (dec ⟨c.length, c, capacity⟩).decoded_size ≠ 0))

/-- The decoder never reports more bytes than the output buffer holds, on the
stream `c`. -/
def RespectsCapacity (dec : Decoder) (c : Bytes) : Prop :=
  ∀ capacity : Nat, (dec ⟨c.length, c, capacity⟩).decoded_size ≤ capacity

/-- The value `ceil(log2(S / E0))` for `0 < E0`: the least `n` with
`S ≤ E0 * 2^n`. -/
def ceilLog2Ratio (S E0 : Nat) : Nat :=
  Nat.clog 2 ((S + E0 - 1) / E0)

/-- How attempt `k` of `decompressLoop` ended the run: with the decoded bytes
when the decoder succeeded, with the `ValueError` when it failed and reported
zero bytes. -/
def DecoderStops (dec : Decoder) (call : DecoderCall) (result : Option PyResult) : Prop :=
  ((dec call).status = BROTLI_DECODER_SUCCESS ∧
      result = some (PyResult.bytes (dec call).data)) ∨
  ((dec call).failed ∧ (dec call).decoded_size = 0 ∧
      result = some (PyResult.valueError "Invalid brotli-compressed buffer"))

/-- The encoder call of attempt `j` of `compress(buffer, mode, window, quality)`:
the supplied parameters (or their defaults), the caller's buffer and its
length, and the capacity `len(buffer) * 2^j` as a `size_t`. -/
def compressAttempt (buffer : Bytes) (mode window quality : Option Int) (j : Nat) :
    EncoderCall :=
  ⟨quality.getD BROTLI_DEFAULT_QUALITY, window.getD BROTLI_DEFAULT_WINDOW,
    mode.getD BROTLI_DEFAULT_MODE, buffer.length, buffer, toSizeT (buffer.length * 2 ^ j)⟩

/-- The decoder call of attempt `j` of `decompress(buffer)`: the caller's
buffer and its length, and the capacity `4 * len(buffer) * 4^j` as a `size_t`. -/
def decompressAttempt (buffer : Bytes) (j : Nat) : DecoderCall :=
  ⟨buffer.length, buffer, toSizeT (buffer.length * 4 * 4 ^ j)⟩

/-! ## A small concrete codec

The statements below hold for an arbitrary encoder and decoder.  To instantiate
them, the following codec plays the part of the library.  A stream is either a
stored block (marker 6, then the bytes themselves) or a run block (marker 7, a
count and a byte).  Like the Brotli one-shot functions, the codec refuses an
output buffer that is too small, reports the number of bytes it wrote, and
never writes more than the capacity. -/

/-- Pad or cut `data` to a buffer of exactly `capacity` bytes. -/
def fillBuffer (data : Bytes) (capacity : Nat) : Bytes :=
  data.take capacity ++ List.replicate (capacity - data.length) 0

/-- Sample encoder: a stored block, which needs `input_size + 1` bytes of
output; with less it fails and reports zero bytes, as `BrotliEncoderCompress`
does. -/
def sampleEncoder : Encoder := fun call =>
  let stream : Bytes := 6 :: call.input_buffer.take call.input_size
  if stream.length ≤ call.capacity then
    ⟨true, stream.length, fillBuffer stream call.capacity⟩
  else
    ⟨false, 0, []⟩

/-- The bytes a stream of the sample codec stands for, `none` when the stream
is malformed. -/
def sampleDecode (stream : Bytes) : Option Bytes :=
  match stream with
  | [] => none
  | marker :: rest =>
    if marker = 6 then some rest
    else if marker = 7 then
      match rest with
      | [count, byte] => some (List.replicate count.toNat byte)
      | _ => none
    else none

/-- Sample decoder: a malformed stream is an error with nothing written;
otherwise the decoded bytes are written as far as the capacity allows, and the
call succeeds when all of them fitted. -/
def sampleDecoder : Decoder := fun call =>
  match sampleDecode (call.encoded_buffer.take call.encoded_size) with
  | none => ⟨BrotliDecoderResult.BROTLI_DECODER_RESULT_ERROR, 0, []⟩
  | some full =>
    if full.length ≤ call.capacity then
      ⟨BROTLI_DECODER_SUCCESS, full.length, fillBuffer full call.capacity⟩
    else
      ⟨BrotliDecoderResult.BROTLI_DECODER_RESULT_ERROR, call.capacity, full.take call.capacity⟩

/-- A decoder that never succeeds and always reports the whole buffer as
written, as for a stream whose end is missing. -/
def stuckDecoder : Decoder := fun call =>
  ⟨BrotliDecoderResult.BROTLI_DECODER_RESULT_ERROR, call.capacity, []⟩

/-- An encoder that reports failure, with zero bytes written, whatever it is
given. -/
def refusingEncoder : Encoder := fun _ => ⟨false, 0, []⟩

/-- The ten bytes `b"aaaaaaaaaa"`. -/
def tenAs : Bytes := List.replicate 10 97

/-! ## The arithmetic of `size_t` -/

theorem toSizeT_toSizeT (x : Nat) : toSizeT (toSizeT x) = toSizeT x := by
  unfold toSizeT
  exact Nat.mod_mod _ _

theorem toSizeT_mul_left (x k : Nat) : toSizeT (toSizeT x * k) = toSizeT (x * k) := by
  unfold toSizeT
  exact Nat.mod_mul_mod

theorem toSizeT_of_lt {x : Nat} (h : x < SIZE_MODULUS) : toSizeT x = x := by
  unfold toSizeT
  exact Nat.mod_eq_of_lt h

theorem toSizeT_lt (x : Nat) : toSizeT x < SIZE_MODULUS := by
  unfold toSizeT
  exact Nat.mod_lt _ (by unfold SIZE_MODULUS; positivity)

/-! ## The shape of a run of `compressLoop` -/

/-- Unfolding of one iteration of `compressLoop` whose encoder call succeeds. -/
theorem compressLoop_succ_ok (enc : Encoder) (q w m : Int) (len : Nat) (buf : Bytes)
    (fuel cap : Nat) (h : (enc ⟨q, w, m, len, buf, cap⟩).ok = true) :
    compressLoop enc q w m len buf (fuel + 1) cap =
      ⟨[⟨q, w, m, len, buf, cap⟩],
        some (PyResult.bytes (enc ⟨q, w, m, len, buf, cap⟩).stream)⟩ := by
  simp [compressLoop, h, PyBytes_FromStringAndSize, EncoderReply.stream]

/-- Unfolding of one iteration of `compressLoop` whose encoder call fails. -/
theorem compressLoop_succ_fail (enc : Encoder) (q w m : Int) (len : Nat) (buf : Bytes)
    (fuel cap : Nat) (h : (enc ⟨q, w, m, len, buf, cap⟩).ok = false) :
    compressLoop enc q w m len buf (fuel + 1) cap =
      ⟨⟨q, w, m, len, buf, cap⟩ ::
          (compressLoop enc q w m len buf fuel (toSizeT (cap * 2))).calls,
        (compressLoop enc q w m len buf fuel (toSizeT (cap * 2))).result⟩ := by
  simp [compressLoop, h]

theorem encoderCallAt_zero (q w m : Int) (len : Nat) (buf : Bytes) (x : Nat) :
    encoderCallAt q w m len buf x 0 = ⟨q, w, m, len, buf, toSizeT x⟩ := by
  simp [encoderCallAt]

theorem encoderCallAt_succ (q w m : Int) (len : Nat) (buf : Bytes) (x j : Nat) :
    encoderCallAt q w m len buf x (j + 1) = encoderCallAt q w m len buf (x * 2) j := by
  have h : x * 2 ^ (j + 1) = x * 2 * 2 ^ j := by ring
  simp [encoderCallAt, h]

/-- Every run of `compressLoop` has one of two shapes.  Either the fuel ran
out: all `fuel` attempts were made and failed.  Or attempt `k` is the first to
succeed: exactly `k + 1` calls were made and the bytes returned are the stream
of that call. -/
theorem compressLoop_shape (enc : Encoder) (q w m : Int) (len : Nat) (buf : Bytes) :
    ∀ fuel x : Nat,
      ((compressLoop enc q w m len buf fuel (toSizeT x)).result = none ∧
        (compressLoop enc q w m len buf fuel (toSizeT x)).calls =
          (List.range fuel).map (encoderCallAt q w m len buf x) ∧
        ∀ j, j < fuel → (enc (encoderCallAt q w m len buf x j)).ok = false) ∨
      (∃ k, k < fuel ∧
        (compressLoop enc q w m len buf fuel (toSizeT x)).calls =
          (List.range (k + 1)).map (encoderCallAt q w m len buf x) ∧
        (∀ j, j < k → (enc (encoderCallAt q w m len buf x j)).ok = false) ∧
        (enc (encoderCallAt q w m len buf x k)).ok = true ∧
        (compressLoop enc q w m len buf fuel (toSizeT x)).result =
          some (PyResult.bytes (enc (encoderCallAt q w m len buf x k)).stream)) := by
  intro fuel
  induction fuel with
  | zero =>
    intro x
    left
    simp [compressLoop]
  | succ fuel ih =>
    intro x
    by_cases hok : (enc ⟨q, w, m, len, buf, toSizeT x⟩).ok = true
    · right
      refine ⟨0, Nat.succ_pos _, ?_, ?_, ?_, ?_⟩
      · rw [compressLoop_succ_ok enc q w m len buf fuel _ hok]
        rw [show List.range (0 + 1) = [0] from rfl]
        simp [encoderCallAt_zero]
      · intro j hj
        omega
      · rw [encoderCallAt_zero]
        exact hok
      · rw [compressLoop_succ_ok enc q w m len buf fuel _ hok, encoderCallAt_zero]
    · have hfail : (enc ⟨q, w, m, len, buf, toSizeT x⟩).ok = false := by
        simpa using hok
      rw [compressLoop_succ_fail enc q w m len buf fuel _ hfail, toSizeT_mul_left]
      rcases ih (x * 2) with ⟨hres, hcalls, hall⟩ | ⟨k, hk, hcalls, hall, hsucc, hres⟩
      · left
        refine ⟨hres, ?_, ?_⟩
        · simp only [hcalls, List.range_succ_eq_map, List.map_cons, List.map_map,
            encoderCallAt_zero]
          congr 1
          apply List.map_congr_left
          intro j _
          simp [encoderCallAt_succ]
        · intro j hj
          cases j with
          | zero => rw [encoderCallAt_zero]; exact hfail
          | succ j => rw [encoderCallAt_succ]; exact hall j (by omega)
      · right
        refine ⟨k + 1, by omega, ?_, ?_, ?_, ?_⟩
        · simp only [hcalls, List.range_succ_eq_map (k + 1), List.map_cons, List.map_map,
            encoderCallAt_zero]
          congr 1
          apply List.map_congr_left
          intro j _
          simp [encoderCallAt_succ]
        · intro j hj
          cases j with
          | zero => rw [encoderCallAt_zero]; exact hfail
          | succ j => rw [encoderCallAt_succ]; exact hall j (by omega)
        · rw [encoderCallAt_succ]
          exact hsucc
        · rw [encoderCallAt_succ]
          exact hres

/-! ## The shape of a run of `decompressLoop` -/

/-- Unfolding of one iteration of `decompressLoop` whose decoder call succeeds. -/
theorem decompressLoop_succ_ok (dec : Decoder) (len : Nat) (buf : Bytes) (fuel cap : Nat)
    (h : (dec ⟨len, buf, cap⟩).status = BROTLI_DECODER_SUCCESS) :
    decompressLoop dec len buf (fuel + 1) cap =
      ⟨[⟨len, buf, cap⟩], some (PyResult.bytes (dec ⟨len, buf, cap⟩).data)⟩ := by
  simp [decompressLoop, h, PyBytes_FromStringAndSize, DecoderReply.data]

/-- Unfolding of one iteration of `decompressLoop` whose decoder call fails
with a nonzero length. -/
theorem decompressLoop_succ_retry (dec : Decoder) (len : Nat) (buf : Bytes) (fuel cap : Nat)
    (h : (dec ⟨len, buf, cap⟩).failed) (hsize : (dec ⟨len, buf, cap⟩).decoded_size ≠ 0) :
    decompressLoop dec len buf (fuel + 1) cap =
      ⟨⟨len, buf, cap⟩ :: (decompressLoop dec len buf fuel (toSizeT (cap * 4))).calls,
        (decompressLoop dec len buf fuel (toSizeT (cap * 4))).result⟩ := by
  unfold DecoderReply.failed at h
  simp [decompressLoop, h, hsize]

/-- Unfolding of one iteration of `decompressLoop` whose decoder call fails
with length zero. -/
theorem decompressLoop_succ_error (dec : Decoder) (len : Nat) (buf : Bytes) (fuel cap : Nat)
    (h : (dec ⟨len, buf, cap⟩).failed) (hsize : (dec ⟨len, buf, cap⟩).decoded_size = 0) :
    decompressLoop dec len buf (fuel + 1) cap =
      ⟨[⟨len, buf, cap⟩], some (PyResult.valueError "Invalid brotli-compressed buffer")⟩ := by
  unfold DecoderReply.failed at h
  simp [decompressLoop, h, hsize]

theorem decoderCallAt_zero (len : Nat) (buf : Bytes) (x : Nat) :
    decoderCallAt len buf x 0 = ⟨len, buf, toSizeT x⟩ := by
  simp [decoderCallAt]

theorem decoderCallAt_succ (len : Nat) (buf : Bytes) (x j : Nat) :
    decoderCallAt len buf x (j + 1) = decoderCallAt len buf (x * 4) j := by
  have h : x * 4 ^ (j + 1) = x * 4 * 4 ^ j := by ring
  simp [decoderCallAt, h]

/-- Every run of `decompressLoop` has one of two shapes.  Either the fuel ran
out: all `fuel` attempts were made, and each failed with a nonzero length.  Or
attempt `k` is the first that does not ask for a retry: exactly `k + 1` calls
were made and the run ended there as `DecoderStops` says. -/
theorem decompressLoop_shape (dec : Decoder) (len : Nat) (buf : Bytes) :
    ∀ fuel x : Nat,
      ((decompressLoop dec len buf fuel (toSizeT x)).result = none ∧
        (decompressLoop dec len buf fuel (toSizeT x)).calls =
          (List.range fuel).map (decoderCallAt len buf x) ∧
        ∀ j, j < fuel → (dec (decoderCallAt len buf x j)).failed ∧
          (dec (decoderCallAt len buf x j)).decoded_size ≠ 0) ∨
      (∃ k, k < fuel ∧
        (decompressLoop dec len buf fuel (toSizeT x)).calls =
          (List.range (k + 1)).map (decoderCallAt len buf x) ∧
        (∀ j, j < k → (dec (decoderCallAt len buf x j)).failed ∧
          (dec (decoderCallAt len buf x j)).decoded_size ≠ 0) ∧
        DecoderStops dec (decoderCallAt len buf x k)
          (decompressLoop dec len buf fuel (toSizeT x)).result) := by
  intro fuel
  induction fuel with
  | zero =>
    intro x
    left
    simp [decompressLoop]
  | succ fuel ih =>
    intro x
    by_cases hok : (dec ⟨len, buf, toSizeT x⟩).status = BROTLI_DECODER_SUCCESS
    · right
      refine ⟨0, Nat.succ_pos _, ?_, ?_, ?_⟩
      · rw [decompressLoop_succ_ok dec len buf fuel _ hok]
        rw [show List.range (0 + 1) = [0] from rfl]
        simp [decoderCallAt_zero]
      · intro j hj
        omega
      · left
        rw [decompressLoop_succ_ok dec len buf fuel _ hok, decoderCallAt_zero]
        exact ⟨hok, rfl⟩
    · have hfail : (dec ⟨len, buf, toSizeT x⟩).failed := hok
      by_cases hsize : (dec ⟨len, buf, toSizeT x⟩).decoded_size = 0
      · right
        refine ⟨0, Nat.succ_pos _, ?_, ?_, ?_⟩
        · rw [decompressLoop_succ_error dec len buf fuel _ hfail hsize]
          rw [show List.range (0 + 1) = [0] from rfl]
          simp [decoderCallAt_zero]
        · intro j hj
          omega
        · right
          rw [decompressLoop_succ_error dec len buf fuel _ hfail hsize, decoderCallAt_zero]
          exact ⟨hfail, hsize, rfl⟩
      · rw [decompressLoop_succ_retry dec len buf fuel _ hfail hsize, toSizeT_mul_left]
        rcases ih (x * 4) with ⟨hres, hcalls, hall⟩ | ⟨k, hk, hcalls, hall, hstop⟩
        · left
          refine ⟨hres, ?_, ?_⟩
          · simp only [hcalls, List.range_succ_eq_map, List.map_cons, List.map_map,
              decoderCallAt_zero]
            congr 1
            apply List.map_congr_left
            intro j _
            simp [decoderCallAt_succ]
          · intro j hj
            cases j with
            | zero => rw [decoderCallAt_zero]; exact ⟨hfail, hsize⟩
            | succ j => rw [decoderCallAt_succ]; exact hall j (by omega)
        · right
          refine ⟨k + 1, by omega, ?_, ?_, ?_⟩
          · simp only [hcalls, List.range_succ_eq_map (k + 1), List.map_cons, List.map_map,
              decoderCallAt_zero]
            congr 1
            apply List.map_congr_left
            intro j _
            simp [decoderCallAt_succ]
          · intro j hj
            cases j with
            | zero => rw [decoderCallAt_zero]; exact ⟨hfail, hsize⟩
            | succ j => rw [decoderCallAt_succ]; exact hall j (by omega)
          · rw [decoderCallAt_succ]
            exact hstop

/-! ## The two shapes, for `compress` and `decompress` themselves -/

theorem compress_shape (enc : Encoder) (fuel : Nat) (buffer : Bytes)
    (mode window quality : Option Int) :
    ((compress enc fuel buffer mode window quality).result = none ∧
      (compress enc fuel buffer mode window quality).calls =
        (List.range fuel).map (compressAttempt buffer mode window quality) ∧
      ∀ j, j < fuel → (enc (compressAttempt buffer mode window quality j)).ok = false) ∨
    (∃ k, k < fuel ∧
      (compress enc fuel buffer mode window quality).calls =
        (List.range (k + 1)).map (compressAttempt buffer mode window quality) ∧
      (∀ j, j < k → (enc (compressAttempt buffer mode window quality j)).ok = false) ∧
      (enc (compressAttempt buffer mode window quality k)).ok = true ∧
      (compress enc fuel buffer mode window quality).result =
        some (PyResult.bytes (enc (compressAttempt buffer mode window quality k)).stream)) :=
  compressLoop_shape enc (quality.getD BROTLI_DEFAULT_QUALITY)
    (window.getD BROTLI_DEFAULT_WINDOW) (mode.getD BROTLI_DEFAULT_MODE)
    buffer.length buffer fuel buffer.length

theorem decompress_shape (dec : Decoder) (fuel : Nat) (buffer : Bytes) :
    ((decompress dec fuel buffer).result = none ∧
      (decompress dec fuel buffer).calls =
        (List.range fuel).map (decompressAttempt buffer) ∧
      ∀ j, j < fuel → (dec (decompressAttempt buffer j)).failed ∧
        (dec (decompressAttempt buffer j)).decoded_size ≠ 0) ∨
    (∃ k, k < fuel ∧
      (decompress dec fuel buffer).calls =
        (List.range (k + 1)).map (decompressAttempt buffer) ∧
      (∀ j, j < k → (dec (decompressAttempt buffer j)).failed ∧
        (dec (decompressAttempt buffer j)).decoded_size ≠ 0) ∧
      DecoderStops dec (decompressAttempt buffer k) (decompress dec fuel buffer).result) :=
  decompressLoop_shape dec buffer.length buffer fuel (buffer.length * 4)

/-- The calls of a run are the attempts `0, 1, ...` in order. -/
theorem compress_calls (enc : Encoder) (fuel : Nat) (buffer : Bytes)
    (mode window quality : Option Int) :
    (compress enc fuel buffer mode window quality).calls =
      (List.range (compress enc fuel buffer mode window quality).calls.length).map
        (compressAttempt buffer mode window quality) := by
  rcases compress_shape enc fuel buffer mode window quality with ⟨_, h, _⟩ | ⟨k, _, h, _⟩
  · rw [h]; simp
  · rw [h]; simp

/-- The calls of a run are the attempts `0, 1, ...` in order. -/
theorem decompress_calls (dec : Decoder) (fuel : Nat) (buffer : Bytes) :
    (decompress dec fuel buffer).calls =
      (List.range (decompress dec fuel buffer).calls.length).map
        (decompressAttempt buffer) := by
  rcases decompress_shape dec fuel buffer with ⟨_, h, _⟩ | ⟨k, _, h, _⟩
  · rw [h]; simp
  · rw [h]; simp

/-! ## C8: defaults and forwarding -/

/-- C8. Every encoder call `compress` makes carries the quality, window and
mode the caller supplied, each in the argument of the same name, and the
default of that name (the module constants `DEFAULT_QUALITY`, `DEFAULT_WINDOW`,
`DEFAULT_MODE`) for an argument the caller left out; it carries the caller's
bytes and their exact length; and at least one such call is made. -/
theorem compress_forwards_parameters (enc : Encoder) (fuel : Nat) (buffer : Bytes)
    (mode window quality : Option Int) :
    (List.lookup "DEFAULT_QUALITY" PyInit_ubrotli = some BROTLI_DEFAULT_QUALITY ∧
      List.lookup "DEFAULT_WINDOW" PyInit_ubrotli = some BROTLI_DEFAULT_WINDOW ∧
      List.lookup "DEFAULT_MODE" PyInit_ubrotli = some BROTLI_DEFAULT_MODE) ∧
    (compress enc (fuel + 1) buffer mode window quality).calls ≠ [] ∧
    (∀ call ∈ (compress enc fuel buffer mode window quality).calls,
      call.quality = quality.getD BROTLI_DEFAULT_QUALITY ∧
      call.lgwin = window.getD BROTLI_DEFAULT_WINDOW ∧
      call.mode = mode.getD BROTLI_DEFAULT_MODE ∧
      call.input_buffer = buffer ∧
      call.input_size = buffer.length) := by
  refine ⟨⟨by decide, by decide, by decide⟩, ?_, ?_⟩
  · rcases compress_shape enc (fuel + 1) buffer mode window quality with
      ⟨_, h, _⟩ | ⟨k, _, h, _⟩
    · rw [h]; simp
    · rw [h]; simp
  · intro call hcall
    rw [compress_calls] at hcall
    obtain ⟨j, _, rfl⟩ := List.mem_map.1 hcall
    simp [compressAttempt]

/-! ## C5: what `compress` rejects at entry -/

/-- The first call of the body carries the values of the C variables, the
caller's input and capacity `len(input)`. -/
theorem compress_first_call (enc : Encoder) (fuel : Nat) (buffer : Bytes)
    (mode window quality : Option Int) :
    (compress enc (fuel + 1) buffer mode window quality).calls.head? =
      some ⟨quality.getD BROTLI_DEFAULT_QUALITY, window.getD BROTLI_DEFAULT_WINDOW,
        mode.getD BROTLI_DEFAULT_MODE, buffer.length, buffer, toSizeT buffer.length⟩ := by
  rcases compress_shape enc (fuel + 1) buffer mode window quality with
    ⟨_, h, _⟩ | ⟨k, _, h, _⟩
  · rw [h]; simp [List.range_succ_eq_map, compressAttempt]
  · rw [h]; simp [List.range_succ_eq_map, compressAttempt]

/-- The body of `compress` has no error exit: its result, if any, is bytes. -/
theorem compress_result_bytes (enc : Encoder) (fuel : Nat) (buffer : Bytes)
    (mode window quality : Option Int) (r : PyResult)
    (h : (compress enc fuel buffer mode window quality).result = some r) :
    ∃ out, r = PyResult.bytes out := by
  rcases compress_shape enc fuel buffer mode window quality with
    ⟨hnone, _, _⟩ | ⟨k, _, _, _, _, hres⟩
  · rw [hnone] at h
    cases h
  · rw [hres] at h
    injection h with h
    exact ⟨_, h.symm⟩

/-- C5, counterexample. With quality `MIN_QUALITY - 1` the call
`compress(b"aaaaaaaaaa", quality=-1)` does not fail: the value passes the
parser, the encoder is called with quality `-1` and the stream it produces is
returned. -/
theorem compress_out_of_range_quality_accepted :
    List.lookup "MIN_QUALITY" PyInit_ubrotli = some BROTLI_MIN_QUALITY ∧
    (ubrotli_compress sampleEncoder 2 tenAs none none
        (some (BROTLI_MIN_QUALITY - 1))).result =
      some (PyResult.bytes (6 :: tenAs)) ∧
    (ubrotli_compress sampleEncoder 2 tenAs none none
        (some (BROTLI_MIN_QUALITY - 1))).calls =
      [⟨-1, 22, 0, 10, tenAs, 10⟩, ⟨-1, 22, 0, 10, tenAs, 20⟩] := by
  decide

/-- C5, amended. `compress` rejects a quality, window or mode at entry, before
any encoding attempt, when the value does not fit a C `int`: the call fails
with the parser's `OverflowError` and the encoder is never called.  A value
that fits a C `int` is not checked any further, whether or not it lies in the
codec's range (quality `MIN_QUALITY - 1`, a window below the floor or above
the ceiling): the first step is an encoder call with exactly the supplied
values on the caller's input at capacity `len(input)`, and `compress` raises
no error of its own. -/
theorem compress_rejects_only_at_parse (enc : Encoder) (fuel : Nat) (buffer : Bytes)
    (mode window quality : Option Int) :
    (PyArg_ParseTupleAndKeywords mode window quality = false →
      (ubrotli_compress enc fuel buffer mode window quality).calls = [] ∧
      (ubrotli_compress enc fuel buffer mode window quality).result =
        some PyResult.overflowError) ∧
    (PyArg_ParseTupleAndKeywords mode window quality = true →
      (ubrotli_compress enc (fuel + 1) buffer mode window quality).calls.head? =
        some ⟨quality.getD BROTLI_DEFAULT_QUALITY, window.getD BROTLI_DEFAULT_WINDOW,
          mode.getD BROTLI_DEFAULT_MODE, buffer.length, buffer, toSizeT buffer.length⟩ ∧
      (ubrotli_compress enc fuel buffer mode window quality).result ≠
        some PyResult.overflowError ∧
      ∀ message : String,
        (ubrotli_compress enc fuel buffer mode window quality).result ≠
          some (PyResult.valueError message)) := by
  constructor
  · intro hparse
    simp [ubrotli_compress, hparse]
  · intro hparse
    simp only [ubrotli_compress, hparse, if_true]
    refine ⟨compress_first_call enc fuel buffer mode window quality, ?_, ?_⟩
    · intro h
      obtain ⟨out, hout⟩ := compress_result_bytes enc fuel buffer mode window quality _ h
      cases hout
    · intro message h
      obtain ⟨out, hout⟩ := compress_result_bytes enc fuel buffer mode window quality _ h
      cases hout

/-- C5, instance: quality `2^31` does not fit a C `int` and is rejected at
entry with no encoder call; window 25, above the codec's ceiling, fits a C
`int` and goes to the encoder unchanged. -/
theorem compress_rejects_only_at_parse_witness :
    ((ubrotli_compress sampleEncoder 2 tenAs none none (some 2147483648)).calls = [] ∧
      (ubrotli_compress sampleEncoder 2 tenAs none none (some 2147483648)).result =
        some PyResult.overflowError) ∧
    ((ubrotli_compress sampleEncoder (1 + 1) tenAs none (some 25) none).calls.head? =
        some ⟨(none : Option Int).getD BROTLI_DEFAULT_QUALITY,
          (some 25 : Option Int).getD BROTLI_DEFAULT_WINDOW,
          (none : Option Int).getD BROTLI_DEFAULT_MODE, tenAs.length, tenAs,
          toSizeT tenAs.length⟩ ∧
      (ubrotli_compress sampleEncoder 1 tenAs none (some 25) none).result ≠
        some PyResult.overflowError ∧
      ∀ message : String,
        (ubrotli_compress sampleEncoder 1 tenAs none (some 25) none).result ≠
          some (PyResult.valueError message)) :=
  ⟨(compress_rejects_only_at_parse sampleEncoder 2 tenAs none none (some 2147483648)).1
      (by decide),
    (compress_rejects_only_at_parse sampleEncoder 1 tenAs none (some 25) none).2
      (by decide)⟩

/-! ## C9: an encoder that always fails -/

/-- C9. When the encoder reports failure at every capacity, whatever length it
reports, `compress` never returns: for every `n` it has made `n` attempts and
is still in the loop.  When the decoder reports failure with zero bytes,
`decompress` stops at the first attempt with the `ValueError`. -/
theorem compress_unbounded_decompress_stops (enc : Encoder) (dec : Decoder)
    (buffer : Bytes) (mode window quality : Option Int)
    (henc : ∀ j, (enc (compressAttempt buffer mode window quality j)).ok = false)
    (hdec : ∀ j, (dec (decompressAttempt buffer j)).failed ∧
      (dec (decompressAttempt buffer j)).decoded_size = 0) :
    (∀ n, (compress enc n buffer mode window quality).result = none ∧
      (compress enc n buffer mode window quality).calls.length = n) ∧
    (∀ n, (decompress dec (n + 1) buffer).result =
        some (PyResult.valueError "Invalid brotli-compressed buffer") ∧
      (decompress dec (n + 1) buffer).calls.length = 1) := by
  constructor
  · intro n
    rcases compress_shape enc n buffer mode window quality with
      ⟨hres, hcalls, _⟩ | ⟨k, _, _, _, hok, _⟩
    · exact ⟨hres, by rw [hcalls]; simp⟩
    · rw [henc k] at hok
      cases hok
  · intro n
    rcases decompress_shape dec (n + 1) buffer with ⟨_, _, hall⟩ | ⟨k, _, hcalls, hall, hstop⟩
    · exact absurd (hdec 0).2 (hall 0 (Nat.succ_pos n)).2
    · have hk : k = 0 := by
        rcases Nat.eq_zero_or_pos k with h | h
        · exact h
        · exact absurd (hdec 0).2 (hall 0 h).2
      subst hk
      rcases hstop with ⟨hok, _⟩ | ⟨_, _, hres⟩
      · exact absurd hok (hdec 0).1
      · exact ⟨hres, by rw [hcalls]; simp⟩

/-- C9, instance: an encoder that always refuses, and the sample decoder on
ten bytes that are not a stream. -/
theorem compress_unbounded_decompress_stops_witness :
    (∀ n, (compress refusingEncoder n tenAs none none none).result = none ∧
      (compress refusingEncoder n tenAs none none none).calls.length = n) ∧
    (∀ n, (decompress sampleDecoder (n + 1) tenAs).result =
        some (PyResult.valueError "Invalid brotli-compressed buffer") ∧
      (decompress sampleDecoder (n + 1) tenAs).calls.length = 1) :=
  compress_unbounded_decompress_stops refusingEncoder sampleDecoder tenAs none none none
    (by intro j; rfl)
    (by
      intro j
      have h : sampleDecode tenAs = none := by decide
      simp [decompressAttempt, sampleDecoder, h, DecoderReply.failed])

/-! ## C2 and C7: the empty input -/

/-- C2, at the failing input. For the empty byte string the first capacity is
zero; with an encoder that refuses a zero-byte output buffer, `compress` never
returns: after any number `n` of attempts it has made `n` calls and is still
in the loop. -/
theorem compress_empty_input_never_returns (enc : Encoder)
    (mode window quality : Option Int)
    (hzero : (enc ⟨quality.getD BROTLI_DEFAULT_QUALITY, window.getD BROTLI_DEFAULT_WINDOW,
      mode.getD BROTLI_DEFAULT_MODE, 0, [], 0⟩).ok = false) :
    ∀ n, (compress enc n [] mode window quality).result = none ∧
      (compress enc n [] mode window quality).calls.length = n := by
  intro n
  have hall : ∀ j, (enc (compressAttempt [] mode window quality j)).ok = false := by
    intro j
    simpa [compressAttempt, toSizeT] using hzero
  rcases compress_shape enc n [] mode window quality with
    ⟨hres, hcalls, _⟩ | ⟨k, _, _, _, hok, _⟩
  · exact ⟨hres, by rw [hcalls]; simp⟩
  · rw [hall k] at hok
    cases hok

/-- C2, instance: `compress(b"")` with the sample encoder, which like
`BrotliEncoderCompress` needs at least one byte of output. -/
theorem compress_empty_input_never_returns_witness :
    (sampleEncoder ⟨11, 22, 0, 0, [], 0⟩).ok = false ∧
    ∀ n, (compress sampleEncoder n [] none none none).result = none ∧
      (compress sampleEncoder n [] none none none).calls.length = n :=
  ⟨by decide, compress_empty_input_never_returns sampleEncoder none none none (by decide)⟩

/-- C7, at the failing input. For the empty byte string every attempt of
`compress`, the retries included, has capacity zero: a retry is not larger
than the attempt that failed. -/
theorem compress_empty_input_capacity_stays_zero (fuel : Nat) :
    (compress sampleEncoder fuel [] none none none).calls.map EncoderCall.capacity =
      List.replicate fuel 0 := by
  rcases compress_shape sampleEncoder fuel [] none none none with
    ⟨_, hcalls, _⟩ | ⟨k, _, _, _, hok, _⟩
  · rw [hcalls]
    apply List.ext_getElem
    · simp
    · intro i h1 h2
      simp [compressAttempt, toSizeT]
  · simp [compressAttempt, sampleEncoder, toSizeT] at hok

/-! ## Non-empty input: `compress` does return -/

/-- From a positive capacity `x`, with an encoder that succeeds at every
capacity of at least `bound`, `bound ≤ x * 2^n`, and `2 * bound` fitting a
`size_t`, the loop returns bytes within `n + 1` attempts. -/
theorem compressLoop_reaches (enc : Encoder) (q w m : Int) (len : Nat) (buf : Bytes)
    (bound : Nat)
    (hok : ∀ capacity, bound ≤ capacity → (enc ⟨q, w, m, len, buf, capacity⟩).ok = true)
    (hfit : bound * 2 ≤ SIZE_MODULUS) :
    ∀ n x fuel : Nat, 0 < x → bound ≤ x * 2 ^ n → n + 1 ≤ fuel →
      (∃ out, (compressLoop enc q w m len buf fuel x).result = some (PyResult.bytes out)) ∧
      (compressLoop enc q w m len buf fuel x).calls.length ≤ n + 1 := by
  intro n
  induction n with
  | zero =>
    intro x fuel _ hle hfuel
    obtain ⟨f, rfl⟩ : ∃ f, fuel = f + 1 := ⟨fuel - 1, by omega⟩
    have hx : bound ≤ x := by simpa using hle
    rw [compressLoop_succ_ok enc q w m len buf f x (hok x hx)]
    exact ⟨⟨_, rfl⟩, by simp⟩
  | succ n ih =>
    intro x fuel hpos hle hfuel
    obtain ⟨f, rfl⟩ : ∃ f, fuel = f + 1 := ⟨fuel - 1, by omega⟩
    by_cases hcall : (enc ⟨q, w, m, len, buf, x⟩).ok = true
    · rw [compressLoop_succ_ok enc q w m len buf f x hcall]
      exact ⟨⟨_, rfl⟩, by simp⟩
    · have hfail : (enc ⟨q, w, m, len, buf, x⟩).ok = false := by simpa using hcall
      have hlt : x < bound := by
        by_contra hge
        exact hcall (hok x (by omega))
      rw [compressLoop_succ_fail enc q w m len buf f x hfail]
      have hnext : toSizeT (x * 2) = x * 2 := toSizeT_of_lt (by omega)
      rw [hnext]
      have hle2 : bound ≤ x * 2 * 2 ^ n := by
        have h : x * 2 ^ (n + 1) = x * 2 * 2 ^ n := by ring
        omega
      obtain ⟨hres, hlen⟩ := ih (x * 2) f (by omega) hle2 (by omega)
      exact ⟨hres, by simp only [List.length_cons]; omega⟩

/-- For a non-empty input, and an encoder that succeeds once the capacity
reaches some bound (with `2 * bound` and the input length fitting a `size_t`),
`compress` terminates and returns bytes. -/
theorem compress_returns_of_nonempty (enc : Encoder) (buffer : Bytes)
    (mode window quality : Option Int) (bound : Nat)
    (hne : buffer ≠ [])
    (hok : ∀ capacity, bound ≤ capacity →
      (enc ⟨quality.getD BROTLI_DEFAULT_QUALITY, window.getD BROTLI_DEFAULT_WINDOW,
        mode.getD BROTLI_DEFAULT_MODE, buffer.length, buffer, capacity⟩).ok = true)
    (hlen : buffer.length < SIZE_MODULUS) (hfit : bound * 2 ≤ SIZE_MODULUS) :
    ∃ n, ∀ fuel, n ≤ fuel →
      ∃ out, (compress enc fuel buffer mode window quality).result =
        some (PyResult.bytes out) := by
  refine ⟨bound + 1, fun fuel hfuel => ?_⟩
  have hpos : 0 < buffer.length := List.length_pos.2 hne
  have hreach : bound ≤ buffer.length * 2 ^ bound := by
    have h1 : bound < 2 ^ bound := Nat.lt_pow_self (by decide) _
    calc bound ≤ 1 * 2 ^ bound := by omega
      _ ≤ buffer.length * 2 ^ bound := Nat.mul_le_mul_right _ hpos
  have h := compressLoop_reaches enc (quality.getD BROTLI_DEFAULT_QUALITY)
    (window.getD BROTLI_DEFAULT_WINDOW) (mode.getD BROTLI_DEFAULT_MODE) buffer.length buffer
    bound hok hfit bound buffer.length fuel hpos hreach hfuel
  unfold compress
  simp only [toSizeT_of_lt hlen]
  exact h.1

/-! ## The growth step -/

/-- In `compress` the capacity of a retry is the capacity of the failed
attempt times 2, as a `size_t`; the length the encoder reported plays no
part. -/
theorem compressAttempt_capacity_succ (buffer : Bytes) (mode window quality : Option Int)
    (j : Nat) :
    (compressAttempt buffer mode window quality (j + 1)).capacity =
      toSizeT ((compressAttempt buffer mode window quality j).capacity * 2) := by
  simp only [compressAttempt]
  rw [toSizeT_mul_left]
  congr 1
  ring

/-- In `decompress` the capacity of a retry is the capacity of the failed
attempt times 4, as a `size_t`; the length the decoder reported plays no
part. -/
theorem decompressAttempt_capacity_succ (buffer : Bytes) (j : Nat) :
    (decompressAttempt buffer (j + 1)).capacity =
      toSizeT ((decompressAttempt buffer j).capacity * 4) := by
  simp only [decompressAttempt]
  rw [toSizeT_mul_left]
  congr 1
  ring

/-- A retry is strictly larger than the failed attempt when that attempt had a
positive capacity and the product fits a `size_t`. -/
theorem retry_capacity_lt (capacity factor : Nat) (hpos : 0 < capacity) (hfactor : 2 ≤ factor)
    (hfit : capacity * factor < SIZE_MODULUS) :
    capacity < toSizeT (capacity * factor) := by
  rw [toSizeT_of_lt hfit]
  nlinarith

/-! ## C4: zero progress ends `decompress` -/

/-- C4. Take any attempt of `decompress`, the `k`-th call of the run.  If the
decoder reports non-success with zero bytes there, the run ends with that call
(no further attempt is made) and its result is the error
"Invalid brotli-compressed buffer", not bytes.  And if a further attempt was
made after it, the decoder had reported non-success with a nonzero length. -/
theorem decompress_zero_progress_terminal (dec : Decoder) (fuel : Nat) (buffer : Bytes)
    (k : Nat) (call : DecoderCall)
    (hcall : (decompress dec fuel buffer).calls[k]? = some call) :
    ((dec call).failed → (dec call).decoded_size = 0 →
      (decompress dec fuel buffer).calls.length = k + 1 ∧
      (decompress dec fuel buffer).result =
        some (PyResult.valueError "Invalid brotli-compressed buffer")) ∧
    (k + 1 < (decompress dec fuel buffer).calls.length →
      (dec call).failed ∧ (dec call).decoded_size ≠ 0) := by
  have hk : k < (decompress dec fuel buffer).calls.length := by
    rcases Nat.lt_or_ge k (decompress dec fuel buffer).calls.length with h | h
    · exact h
    · rw [List.getElem?_eq_none h] at hcall
      cases hcall
  have hcall2 : call = decompressAttempt buffer k := by
    rw [decompress_calls] at hcall
    rw [List.getElem?_map, List.getElem?_range hk] at hcall
    simpa using hcall.symm
  subst hcall2
  rcases decompress_shape dec fuel buffer with
    ⟨_, hcalls, hall⟩ | ⟨k0, _, hcalls, hall, hstop⟩
  · have hlen : (decompress dec fuel buffer).calls.length = fuel := by rw [hcalls]; simp
    have hkf : k < fuel := by omega
    exact ⟨fun _ hz => absurd hz (hall k hkf).2, fun _ => hall k hkf⟩
  · have hlen : (decompress dec fuel buffer).calls.length = k0 + 1 := by rw [hcalls]; simp
    rcases Nat.lt_or_ge k k0 with hlt | hge
    · exact ⟨fun _ hz => absurd hz (hall k hlt).2, fun _ => hall k hlt⟩
    · have hkk : k = k0 := by omega
      subst hkk
      refine ⟨fun hf hz => ⟨hlen, ?_⟩, fun h => by omega⟩
      rcases hstop with ⟨hok, _⟩ | ⟨_, _, hres⟩
      · exact absurd hok hf
      · exact hres

/-- C4, instance: the stuck decoder on a one-byte input reports a nonzero
length until the capacity `4 * 4^k` wraps to zero at the 32nd attempt, where it
reports zero bytes and the run ends with the error. -/
theorem decompress_zero_progress_terminal_witness :
    (decompress stuckDecoder 40 [0]).calls[31]? = some ⟨1, [0], 0⟩ ∧
    (((stuckDecoder ⟨1, [0], 0⟩).failed → (stuckDecoder ⟨1, [0], 0⟩).decoded_size = 0 →
      (decompress stuckDecoder 40 [0]).calls.length = 31 + 1 ∧
      (decompress stuckDecoder 40 [0]).result =
        some (PyResult.valueError "Invalid brotli-compressed buffer")) ∧
    (31 + 1 < (decompress stuckDecoder 40 [0]).calls.length →
      (stuckDecoder ⟨1, [0], 0⟩).failed ∧ (stuckDecoder ⟨1, [0], 0⟩).decoded_size ≠ 0)) :=
  ⟨by decide, decompress_zero_progress_terminal stuckDecoder 40 [0] 31 ⟨1, [0], 0⟩ (by decide)⟩

/-! ## C3: an input that never decodes -/

theorem decompressAttempt_capacity_31 (buffer : Bytes) :
    (decompressAttempt buffer 31).capacity = 0 := by
  simp only [decompressAttempt, toSizeT, SIZE_MODULUS]
  have h : buffer.length * 4 * 4 ^ 31 = buffer.length * 2 ^ 64 := by norm_num [Nat.mul_assoc]
  rw [h]
  exact Nat.mul_mod_left _ _

/-- C3. If the decoder reports failure on the input at every output capacity,
and never reports more bytes than the capacity it was given, then `decompress`
stops within 32 attempts and its result is the `ValueError`, not bytes: the
capacity `4 * len * 4^k` taken modulo `2^64` is zero at the 32nd attempt at the
latest, and there the reported length is zero. -/
theorem decompress_undecodable_stops (dec : Decoder) (buffer : Bytes)
    (hfail : ∀ capacity, (dec ⟨buffer.length, buffer, capacity⟩).failed)
    (hcap : RespectsCapacity dec buffer) :
    ∀ fuel, 32 ≤ fuel →
      (decompress dec fuel buffer).result =
        some (PyResult.valueError "Invalid brotli-compressed buffer") ∧
      (decompress dec fuel buffer).calls.length ≤ 32 := by
  intro fuel hfuel
  have h31 : (dec (decompressAttempt buffer 31)).decoded_size = 0 := by
    have h := hcap (decompressAttempt buffer 31).capacity
    rw [decompressAttempt_capacity_31] at h
    have hc : decompressAttempt buffer 31 = ⟨buffer.length, buffer, 0⟩ := by
      have := decompressAttempt_capacity_31 buffer
      simp only [decompressAttempt] at this ⊢
      rw [this]
    rw [hc]
    omega
  rcases decompress_shape dec fuel buffer with ⟨_, _, hall⟩ | ⟨k, _, hcalls, hall, hstop⟩
  · exact absurd h31 (hall 31 (by omega)).2
  · have hk : k ≤ 31 := by
      by_contra hgt
      exact absurd h31 (hall 31 (by omega)).2
    rcases hstop with ⟨hok, _⟩ | ⟨_, _, hres⟩
    · exact absurd hok (hfail _)
    · exact ⟨hres, by rw [hcalls]; simp; omega⟩

/-- C3, instance: the stuck decoder on a one-byte input. -/
theorem decompress_undecodable_stops_witness :
    (decompress stuckDecoder 32 [0]).result =
        some (PyResult.valueError "Invalid brotli-compressed buffer") ∧
      (decompress stuckDecoder 32 [0]).calls.length ≤ 32 :=
  decompress_undecodable_stops stuckDecoder [0]
    (by intro capacity; simp [stuckDecoder, DecoderReply.failed])
    (by intro capacity; simp [stuckDecoder]) 32 (by decide)

/-! ## Reaching the decoded size -/

/-- From a capacity `x` that is positive (or already large enough), with
`len b ≤ x * 4^n` and no capacity up to `4 * len b` overflowing, the loop
returns `b` within `n + 1` attempts. -/
theorem decompressLoop_reaches (dec : Decoder) (c b : Bytes) (hdec : DecodesTo dec c b)
    (hfit : b.length * 4 ≤ SIZE_MODULUS) :
    ∀ n x fuel : Nat, (b.length ≤ x ∨ 0 < x) → b.length ≤ x * 4 ^ n → n + 1 ≤ fuel →
      (decompressLoop dec c.length c fuel x).result = some (PyResult.bytes b) ∧
      (decompressLoop dec c.length c fuel x).calls.length ≤ n + 1 := by
  intro n
  induction n with
  | zero =>
    intro x fuel _ hle hfuel
    obtain ⟨f, rfl⟩ : ∃ f, fuel = f + 1 := ⟨fuel - 1, by omega⟩
    have hx : b.length ≤ x := by simpa using hle
    obtain ⟨hok, hdata⟩ := (hdec x).1 hx
    rw [decompressLoop_succ_ok dec c.length c f x hok, hdata]
    simp
  | succ n ih =>
    intro x fuel hpos hle hfuel
    obtain ⟨f, rfl⟩ : ∃ f, fuel = f + 1 := ⟨fuel - 1, by omega⟩
    rcases Nat.lt_or_ge x b.length with hlt | hge
    · have hx : 0 < x := by
        rcases hpos with h | h
        · omega
        · exact h
      obtain ⟨hfail, hsize⟩ := (hdec x).2 hlt
      rw [decompressLoop_succ_retry dec c.length c f x hfail (hsize hx)]
      have hnext : toSizeT (x * 4) = x * 4 := toSizeT_of_lt (by omega)
      rw [hnext]
      have hle2 : b.length ≤ x * 4 * 4 ^ n := by
        have h : x * 4 ^ (n + 1) = x * 4 * 4 ^ n := by ring
        omega
      obtain ⟨hres, hlen⟩ := ih (x * 4) f (Or.inr (by omega)) hle2 (by omega)
      exact ⟨hres, by simp only [List.length_cons]; omega⟩
    · obtain ⟨hok, hdata⟩ := (hdec x).1 hge
      rw [decompressLoop_succ_ok dec c.length c f x hok, hdata]
      simp

/-- The least `n` of `ceilLog2Ratio` does satisfy `S ≤ E0 * 2^n`. -/
theorem le_mul_two_pow_ceilLog2Ratio (S E0 : Nat) (hE0 : 0 < E0) :
    S ≤ E0 * 2 ^ ceilLog2Ratio S E0 := by
  unfold ceilLog2Ratio
  have h1 : (S + E0 - 1) / E0 ≤ 2 ^ Nat.clog 2 ((S + E0 - 1) / E0) :=
    Nat.le_pow_clog (by decide) _
  have h2 : S + E0 - 1 < E0 * ((S + E0 - 1) / E0 + 1) := Nat.lt_mul_div_succ _ hE0
  have h3 : E0 * ((S + E0 - 1) / E0) ≤ E0 * 2 ^ Nat.clog 2 ((S + E0 - 1) / E0) :=
    Nat.mul_le_mul_left _ h1
  rw [Nat.mul_add, Nat.mul_one] at h2
  omega

/-- No smaller `n` satisfies `S ≤ E0 * 2^n`. -/
theorem ceilLog2Ratio_le (S E0 n : Nat) (hE0 : 0 < E0) (h : S ≤ E0 * 2 ^ n) :
    ceilLog2Ratio S E0 ≤ n := by
  unfold ceilLog2Ratio
  apply (Nat.le_pow_iff_clog_le (by decide)).1
  have h2 : (S + E0 - 1) / E0 ≤ (E0 * 2 ^ n + E0 - 1) / E0 :=
    Nat.div_le_div_right (by omega)
  have h3 : (E0 * 2 ^ n + E0 - 1) / E0 = 2 ^ n := by
    have h4 : E0 * 2 ^ n + E0 - 1 = (E0 - 1) + E0 * 2 ^ n := by omega
    rw [h4, Nat.add_mul_div_left _ _ hE0, Nat.div_eq_of_lt (by omega)]
    omega
  omega

theorem two_pow_le_four_pow (n : Nat) : 2 ^ n ≤ 4 ^ n :=
  Nat.pow_le_pow_left (by decide) n

/-! ## The sample codec decodes what it stands for -/

theorem take_length_fillBuffer (data : Bytes) (capacity : Nat) (h : data.length ≤ capacity) :
    (fillBuffer data capacity).take data.length = data := by
  unfold fillBuffer
  rw [List.take_of_length_le h, List.take_left]

theorem sampleDecoder_decodesTo (c b : Bytes) (h : sampleDecode c = some b) :
    DecodesTo sampleDecoder c b := by
  intro capacity
  constructor
  · intro hle
    simp [sampleDecoder, h, hle, DecoderReply.data, take_length_fillBuffer]
  · intro hlt
    have hnot : ¬ b.length ≤ capacity := by omega
    simp [sampleDecoder, h, hnot, DecoderReply.failed]
    omega

theorem sampleEncoder_stream (call : EncoderCall) (h : (sampleEncoder call).ok = true) :
    (sampleEncoder call).stream = 6 :: call.input_buffer.take call.input_size := by
  by_cases hfit : (6 :: call.input_buffer.take call.input_size).length ≤ call.capacity
  · have hrep : sampleEncoder call =
        ⟨true, (6 :: call.input_buffer.take call.input_size).length,
          fillBuffer (6 :: call.input_buffer.take call.input_size) call.capacity⟩ := by
      unfold sampleEncoder
      simp only [hfit, if_true]
    rw [hrep]
    exact take_length_fillBuffer _ _ hfit
  · have hrep : sampleEncoder call = ⟨false, 0, []⟩ := by
      unfold sampleEncoder
      simp only [hfit, if_false]
    rw [hrep] at h
    cases h

/-! ## C6: the attempt bound of `decompress` -/

/-- C6. Let the input decode to `b`, of length `S`, let `E0 = 4 * len(input)`
with `0 < E0 < S`, and let no capacity overflow (`4 * S ≤ 2^64`; every capacity
tried is below `4 * S`).  Then `decompress` returns `b` after at most
`ceil(log2(S / E0)) + 1` attempts. -/
theorem decompress_attempt_bound (dec : Decoder) (buffer b : Bytes)
    (hdec : DecodesTo dec buffer b)
    (hE0 : 0 < 4 * buffer.length) (hlt : 4 * buffer.length < b.length)
    (hfit : 4 * b.length ≤ SIZE_MODULUS) :
    ∀ fuel, ceilLog2Ratio b.length (4 * buffer.length) + 1 ≤ fuel →
      (decompress dec fuel buffer).result = some (PyResult.bytes b) ∧
      (decompress dec fuel buffer).calls.length ≤
        ceilLog2Ratio b.length (4 * buffer.length) + 1 := by
  intro fuel hfuel
  have hE : toSizeT (buffer.length * 4) = buffer.length * 4 := toSizeT_of_lt (by omega)
  have hpow : b.length ≤
      buffer.length * 4 * 4 ^ ceilLog2Ratio b.length (4 * buffer.length) := by
    have h1 := le_mul_two_pow_ceilLog2Ratio b.length (4 * buffer.length) hE0
    have h2 := two_pow_le_four_pow (ceilLog2Ratio b.length (4 * buffer.length))
    have h3 := Nat.mul_le_mul_left (4 * buffer.length) h2
    rw [Nat.mul_comm buffer.length 4]
    omega
  have h := decompressLoop_reaches dec buffer b hdec (by omega)
    (ceilLog2Ratio b.length (4 * buffer.length)) (buffer.length * 4) fuel
    (Or.inr (by omega)) hpow hfuel
  unfold decompress
  simp only [hE]
  exact h

/-- C6, instance: the run block `[7, 20, 97]` stands for twenty bytes;
`E0 = 12 < 20 = S`, the bound `ceil(log2(20 / 12)) + 1` is 2, and `decompress`
returns the twenty bytes within 2 attempts. -/
theorem decompress_attempt_bound_witness :
    ceilLog2Ratio 20 12 + 1 = 2 ∧
    (decompress sampleDecoder (ceilLog2Ratio 20 12 + 1) [7, 20, 97]).result =
      some (PyResult.bytes (List.replicate 20 97)) ∧
    (decompress sampleDecoder (ceilLog2Ratio 20 12 + 1) [7, 20, 97]).calls.length ≤
      ceilLog2Ratio 20 12 + 1 :=
  ⟨by simp [ceilLog2Ratio, Nat.clog],
    decompress_attempt_bound sampleDecoder [7, 20, 97] (List.replicate 20 97)
      (sampleDecoder_decodesTo _ _ (by decide)) (by decide) (by decide) (by decide)
      (ceilLog2Ratio 20 12 + 1) (Nat.le_refl _)⟩

/-! ## C1: round trip -/

/-- C1. Let `compress(b, mode, window, quality)` return the stream `c`, and let
the codec be an inverse pair: whatever stream the encoder produces from `b`,
the decoder turns back into `b` when the capacity is at least `len b`, and
otherwise fails with a nonzero partial size.  Let `c` be non-empty unless `b`
is empty, and let the sizes be below `2^62`, so that no capacity overflows.
Then `decompress(c)` terminates and returns exactly `b`. -/
theorem compress_decompress_roundtrip (enc : Encoder) (dec : Decoder) (b : Bytes)
    (mode window quality : Option Int) (fuel : Nat) (c : Bytes)
    (hc : (compress enc fuel b mode window quality).result = some (PyResult.bytes c))
    (hinv : ∀ call : EncoderCall, call.input_buffer = b → call.input_size = b.length →
      (enc call).ok = true → DecodesTo dec (enc call).stream b)
    (hne : b ≠ [] → c ≠ [])
    (hcfit : c.length * 4 < SIZE_MODULUS) (hbfit : b.length * 4 ≤ SIZE_MODULUS) :
    ∃ n, ∀ fuel2, n ≤ fuel2 →
      (decompress dec fuel2 c).result = some (PyResult.bytes b) := by
  have hdec : DecodesTo dec c b := by
    rcases compress_shape enc fuel b mode window quality with
      ⟨hres, _, _⟩ | ⟨k, _, _, _, hok, hres⟩
    · rw [hres] at hc
      cases hc
    · rw [hres] at hc
      have hck : (enc (compressAttempt b mode window quality k)).stream = c := by
        injection hc with h
        injection h
      rw [← hck]
      exact hinv _ rfl rfl hok
  refine ⟨b.length + 1, fun fuel2 hfuel => ?_⟩
  have hE : toSizeT (c.length * 4) = c.length * 4 := toSizeT_of_lt hcfit
  have hpos : b.length ≤ c.length * 4 ∨ 0 < c.length * 4 := by
    by_cases hb : b = []
    · left
      simp [hb]
    · right
      have := List.length_pos.2 (hne hb)
      omega
  have hreach : b.length ≤ c.length * 4 * 4 ^ b.length := by
    rcases hpos with h | h
    · have h1 : 1 ≤ 4 ^ b.length := Nat.one_le_pow _ _ (by decide)
      calc b.length ≤ c.length * 4 * 1 := by omega
        _ ≤ c.length * 4 * 4 ^ b.length := Nat.mul_le_mul_left _ h1
    · have h1 : b.length < 4 ^ b.length := Nat.lt_pow_self (by decide) _
      calc b.length ≤ 1 * 4 ^ b.length := by omega
        _ ≤ c.length * 4 * 4 ^ b.length := Nat.mul_le_mul_right _ h
  have h := decompressLoop_reaches dec c b hdec hbfit b.length (c.length * 4) fuel2
    hpos hreach hfuel
  unfold decompress
  simp only [hE]
  exact h.1

/-- C1, instance: `b"aaaaaaaaaa"` through the sample codec. -/
theorem compress_decompress_roundtrip_witness :
    (compress sampleEncoder 2 tenAs none none none).result =
      some (PyResult.bytes (6 :: tenAs)) ∧
    ∃ n, ∀ fuel2, n ≤ fuel2 →
      (decompress sampleDecoder fuel2 (6 :: tenAs)).result = some (PyResult.bytes tenAs) :=
  ⟨by decide,
    compress_decompress_roundtrip sampleEncoder sampleDecoder tenAs none none none 2
      (6 :: tenAs) (by decide)
      (by
        intro call hbuf hsize hok
        rw [sampleEncoder_stream call hok, hbuf, hsize, List.take_length]
        exact sampleDecoder_decodesTo _ _ (by decide))
      (by decide) (by decide) (by decide)⟩

/-! ## C10: what is returned is the first successful attempt -/

/-- C10. When `compress` returns bytes, they are the stream of the encoder call
at the least `k` for which the encoder succeeds on the caller's input, length
and parameters with capacity `len * 2^k` (as a `size_t`, which is `len * 2^k`
itself when that fits): the output buffer of that call cut to the length it
reported.  Exactly `k + 1` calls were made, and nothing of the `k` failed
calls enters the result.  The same holds for `decompress` with capacity
`4 * len * 4^k`. -/
theorem returned_bytes_are_first_success (enc : Encoder) (dec : Decoder) (fuel : Nat)
    (buffer : Bytes) (mode window quality : Option Int) (out : Bytes) :
    ((compress enc fuel buffer mode window quality).result = some (PyResult.bytes out) →
      ∃ k, k < fuel ∧
        (∀ j, j < k → (enc (compressAttempt buffer mode window quality j)).ok = false) ∧
        (enc (compressAttempt buffer mode window quality k)).ok = true ∧
        (compressAttempt buffer mode window quality k).input_buffer = buffer ∧
        (compressAttempt buffer mode window quality k).input_size = buffer.length ∧
        (buffer.length * 2 ^ k < SIZE_MODULUS →
          (compressAttempt buffer mode window quality k).capacity = buffer.length * 2 ^ k) ∧
        (compress enc fuel buffer mode window quality).calls.length = k + 1 ∧
        out = (enc (compressAttempt buffer mode window quality k)).encoded_buffer.take
          (enc (compressAttempt buffer mode window quality k)).encoded_size) ∧
    ((decompress dec fuel buffer).result = some (PyResult.bytes out) →
      ∃ k, k < fuel ∧
        (∀ j, j < k →
          (dec (decompressAttempt buffer j)).status ≠ BROTLI_DECODER_SUCCESS) ∧
        (dec (decompressAttempt buffer k)).status = BROTLI_DECODER_SUCCESS ∧
        (decompressAttempt buffer k).encoded_buffer = buffer ∧
        (decompressAttempt buffer k).encoded_size = buffer.length ∧
        (4 * buffer.length * 4 ^ k < SIZE_MODULUS →
          (decompressAttempt buffer k).capacity = 4 * buffer.length * 4 ^ k) ∧
        (decompress dec fuel buffer).calls.length = k + 1 ∧
        out = (dec (decompressAttempt buffer k)).decoded_buffer.take
          (dec (decompressAttempt buffer k)).decoded_size) := by
  constructor
  · intro hout
    rcases compress_shape enc fuel buffer mode window quality with
      ⟨hres, _, _⟩ | ⟨k, hk, hcalls, hall, hok, hres⟩
    · rw [hres] at hout
      cases hout
    · refine ⟨k, hk, hall, hok, rfl, rfl, ?_, ?_, ?_⟩
      · intro hfit
        exact toSizeT_of_lt hfit
      · rw [hcalls]; simp
      · rw [hres] at hout
        injection hout with h
        injection h with h
        exact h.symm
  · intro hout
    rcases decompress_shape dec fuel buffer with
      ⟨hres, _, _⟩ | ⟨k, hk, hcalls, hall, hstop⟩
    · rw [hres] at hout
      cases hout
    · rcases hstop with ⟨hok, hres⟩ | ⟨_, _, hres⟩
      · refine ⟨k, hk, fun j hj => (hall j hj).1, hok, rfl, rfl, ?_, ?_, ?_⟩
        · intro hfit
          have h4 : buffer.length * 4 * 4 ^ k = 4 * buffer.length * 4 ^ k := by ring
          simp only [decompressAttempt]
          rw [h4]
          exact toSizeT_of_lt hfit
        · rw [hcalls]; simp
        · rw [hres] at hout
          injection hout with h
          injection h with h
          exact h.symm
      · rw [hres] at hout
        injection hout with h
        cases h

/-- C10, instance: `compress(b"aaaaaaaaaa")` with the sample encoder returns the
stream of its second attempt (capacity 20, the first at capacity 10 failed),
and `decompress` of that stream returns the output of its first attempt. -/
theorem returned_bytes_are_first_success_witness :
    (∃ k, k < 2 ∧
      (∀ j, j < k → (sampleEncoder (compressAttempt tenAs none none none j)).ok = false) ∧
      (sampleEncoder (compressAttempt tenAs none none none k)).ok = true ∧
      (compressAttempt tenAs none none none k).input_buffer = tenAs ∧
      (compressAttempt tenAs none none none k).input_size = tenAs.length ∧
      (tenAs.length * 2 ^ k < SIZE_MODULUS →
        (compressAttempt tenAs none none none k).capacity = tenAs.length * 2 ^ k) ∧
      (compress sampleEncoder 2 tenAs none none none).calls.length = k + 1 ∧
      6 :: tenAs = (sampleEncoder (compressAttempt tenAs none none none k)).encoded_buffer.take
        (sampleEncoder (compressAttempt tenAs none none none k)).encoded_size) ∧
    (∃ k, k < 1 ∧
      (∀ j, j < k →
        (sampleDecoder (decompressAttempt (6 :: tenAs) j)).status ≠ BROTLI_DECODER_SUCCESS) ∧
      (sampleDecoder (decompressAttempt (6 :: tenAs) k)).status = BROTLI_DECODER_SUCCESS ∧
      (decompressAttempt (6 :: tenAs) k).encoded_buffer = 6 :: tenAs ∧
      (decompressAttempt (6 :: tenAs) k).encoded_size = (6 :: tenAs).length ∧
      (4 * (6 :: tenAs).length * 4 ^ k < SIZE_MODULUS →
        (decompressAttempt (6 :: tenAs) k).capacity = 4 * (6 :: tenAs).length * 4 ^ k) ∧
      (decompress sampleDecoder 1 (6 :: tenAs)).calls.length = k + 1 ∧
      tenAs = (sampleDecoder (decompressAttempt (6 :: tenAs) k)).decoded_buffer.take
        (sampleDecoder (decompressAttempt (6 :: tenAs) k)).decoded_size) :=
  ⟨(returned_bytes_are_first_success sampleEncoder sampleDecoder 2 tenAs none none none
      (6 :: tenAs)).1 (by decide),
    (returned_bytes_are_first_success sampleEncoder sampleDecoder 1 (6 :: tenAs) none none none
      tenAs).2 (by decide)⟩

end Ubrotli
